import Mathlib

/-!
Verification of `MTA_model/trainer.py` (2024_Capstone).

The Python trainer is embedded shallowly:
* scalar loss values are rationals (`ℚ`);
* the checkpoint logic of `Trainer.train` (lines 42, 84-86) is a fold over
  the per-epoch validation losses, carrying the best-seen loss as
  `Option ℚ` (`none` stands for the initial `float('inf')`);
* `Trainer.evaluate` (lines 91-121) is a fallible computation in
  `Except PyErr`, reflecting the Python exceptions its body can raise;
* tensor shapes are lists of naturals and the `view`/`squeeze` calls of the
  training flattening (lines 67-68) are shape transformers;
* the module-level seeding (lines 13-15) is a transformer on the global
  RNG state.
Definitions that embed code not present in this repository (the
`ScheduledAdam` schedule, `torch.nn.utils.clip_grad_norm_`) are marked
`Modelled from the spec:` in their doc comments.
-/

/-- Python exceptions relevant to the trainer's control flow, together with
the `DataError` the specification's error taxonomy asks for. -/
inductive PyErr where
  | nameError
  | zeroDivisionError
  | dataError
  deriving DecidableEq

/-- Batch fields a collated batch carries (trainer.py lines 52-62 name all of
them; `brandSequential` is the field `batch.brand_sequential` read in
`evaluate`/`inference`). -/
inductive BatchField where
  | camSequential
  | cateSequential
  | brandSequential
  | priceSequential
  | segment
  | cms
  | gender
  | age
  | pvalue
  | shopping
  | label
  deriving DecidableEq

/-- Best-validation-loss update of `Trainer.train` (trainer.py lines 84-85):
`if valid_loss < best_valid_loss: best_valid_loss = valid_loss`.  `none`
stands for the initial `float('inf')` (line 42), under which any loss wins. -/
def updBest : Option ℚ → ℚ → Option ℚ
  | none, v => some v
  | some b, v => if v < b then some v else some b

/-- Whether the checkpoint write of line 86 fires for validation loss `v`
given the best-seen loss: exactly the guard `valid_loss < best_valid_loss`
of line 84, always true against the initial `float('inf')`. -/
def writeFlag : Option ℚ → ℚ → Bool
  | none, _ => true
  | some b, v => decide (v < b)

/-- Per-epoch checkpoint-write flags of `Trainer.train` (trainer.py
lines 42-86), as a fold over the epoch's validation losses carrying the
best-seen loss. -/
def trainWrites : Option ℚ → List ℚ → List Bool
  | _, [] => []
  | best, v :: rest => writeFlag best v :: trainWrites (updBest best v) rest

/-- The best-seen validation loss after a full run of `Trainer.train` over
the given validation losses (trainer.py lines 42, 84-85). -/
def trainBest (l : List ℚ) : Option ℚ :=
  l.foldl updBest none

/-- Whether `Trainer.train` writes a checkpoint after epoch index `i`
(0-based) of a run with validation losses `l`. -/
def checkpointAt (l : List ℚ) (i : ℕ) : Bool :=
  (trainWrites none l).getD i false

/-- The 1-based epoch numbers after which `Trainer.train` writes a
checkpoint (trainer.py line 86). -/
def writtenEpochs (l : List ℚ) : List ℕ :=
  ((List.range l.length).filter (fun i => checkpointAt l i)).map (· + 1)

/-- One iteration of `Trainer.evaluate`'s loop body (trainer.py
lines 97-119).  Line 111 reads the local `output`, which has not been
assigned anywhere in `evaluate` (likewise `target` on line 112), so the
body raises `NameError` whatever the batch holds; no loss value is ever
produced. -/
def evalBatchStep {α : Type} (_b : α) : Except PyErr ℚ :=
  .error .nameError

/-- `Trainer.evaluate` (trainer.py lines 91-121): accumulate the per-batch
losses produced by the loop body, then divide the total by
`len(self.valid_iter)` (line 121); with zero batches that division is `0/0`
and raises `ZeroDivisionError`. -/
def evaluateRun {α : Type} (batches : List α) : Except PyErr ℚ := do
  let total ← batches.foldlM (fun acc b => do
    let l ← evalBatchStep b
    pure (acc + l)) (0 : ℚ)
  if batches.length = 0 then .error .zeroDivisionError
  else pure (total / batches.length)

/-- Mean epoch loss of `Trainer.train` (trainer.py lines 46, 76, 78) and of
`Trainer.evaluate` (lines 93, 119, 121): `epoch_loss` starts at `0`,
accumulates one loss value per batch, and the report divides by the
iterator's length. -/
def epochMeanLoss (losses : List ℚ) : ℚ :=
  (losses.foldl (· + ·) 0) / losses.length

/-- The batch field `Trainer.train` stacks into its local `brand_sequential`
tensor (trainer.py line 54): `item['price_sequential']`. -/
def trainBrandSource : BatchField := .priceSequential

/-- The batch field `Trainer.evaluate` reads into its local
`brand_sequential` tensor (trainer.py line 99): `batch.brand_sequential`. -/
def evaluateBrandSource : BatchField := .brandSequential

/-- The batch field `Trainer.inference` reads into its local
`brand_sequential` tensor (trainer.py line 132): `batch.brand_sequential`. -/
def inferenceBrandSource : BatchField := .brandSequential

/-- The batch fields whose tensors `Trainer.train` passes to the model, in
call order (trainer.py lines 64-65): `cam_sequential, cate_sequential,
price_sequential, segment` — the local `brand_sequential` is not among
them. -/
def trainModelArgSources : List BatchField :=
  [.camSequential, .cateSequential, .priceSequential, .segment]

/-- The batch fields whose tensors `Trainer.evaluate` passes to the model,
in call order (trainer.py line 109). -/
def evaluateModelArgSources : List BatchField :=
  [.camSequential, .cateSequential, .brandSequential, .priceSequential, .segment]

/-- The batch fields whose tensors `Trainer.inference` passes to the model,
in call order (trainer.py line 142). -/
def inferenceModelArgSources : List BatchField :=
  [.camSequential, .cateSequential, .brandSequential, .priceSequential, .segment]

/-- Number of elements of a tensor with the given shape. -/
def numel (s : List ℕ) : ℕ := s.prod

/-- Shape semantics of `t.view(-1, c)`: succeeds when `c` is a positive
divisor of the element count and yields the two-dimensional shape
`[numel / c, c]`. -/
def view2 (s : List ℕ) (c : ℕ) : Option (List ℕ) :=
  if c ≠ 0 ∧ numel s % c = 0 then some [numel s / c, c] else none

/-- Shape semantics of `t.view(-1)`: the one-dimensional shape holding all
elements. -/
def view1 (s : List ℕ) : List ℕ := [numel s]

/-- Shape semantics of `t.squeeze(1)`: drops dimension 1 when its extent
is 1, otherwise leaves the shape unchanged. -/
def squeeze1 : List ℕ → List ℕ
  | a :: 1 :: rest => a :: rest
  | s => s

/-- Shape effect of the primary-task prediction flattening in
`Trainer.train` (trainer.py line 67):
`conversion_output.contiguous().view(-1, conversion_output.shape[-1]).squeeze(1)`. -/
def trainFlattenOutput (s : List ℕ) : Option (List ℕ) := do
  let c ← s.getLast?
  let v ← view2 s c
  pure (squeeze1 v)

/-- Shape effect of the primary-task label flattening in `Trainer.train`
(trainer.py line 68): `conversion_label.contiguous().view(-1)`. -/
def trainFlattenTarget (s : List ℕ) : List ℕ := view1 s

/-- Persistent state of a `Trainer` relevant to `evaluate`'s frame: the
model's parameters and train/eval mode flag, and the scheduled optimizer's
step counter and wrapped moment estimates. -/
structure TrainerState where
  modelParams : List ℚ
  modelTrainingMode : Bool
  optStep : ℕ
  optMoments : List ℚ
  deriving DecidableEq

/-- Effect of `Trainer.evaluate` on the persistent trainer state
(trainer.py lines 91-121): `self.model.eval()` (line 92) clears the
training-mode flag; the body runs under `torch.no_grad()` (line 95), never
assigns to model parameters, and never touches the optimizer. -/
def evaluateStateEffect (st : TrainerState) : TrainerState :=
  { st with modelTrainingMode := false }

/-- Global RNG state the trainer module mutates at import time. -/
structure GlobalRngState where
  pyRandomSeed : Option ℕ
  torchSeed : Option ℕ
  cudnnDeterministic : Bool
  deriving DecidableEq

/-- Module-import effect of trainer.py (lines 13-15): `random.seed(32)`,
`torch.manual_seed(32)` and `torch.backends.cudnn.deterministic = True`
run unconditionally at load time, whatever the prior global state. -/
def importTrainerModule (_s : GlobalRngState) : GlobalRngState :=
  { pyRandomSeed := some 32, torchSeed := some 32, cudnnDeterministic := true }

/-- Modelled from the spec: the `ScheduledAdam` optimizer lives in
`model/optim.py`, which is not part of this repository's files; the spec
gives its learning rate as
`lr(s) = hidden_dim^(-0.5) * min(s^(-0.5), s * warm_steps^(-1.5))`.
Square roots are irrational, so we track the SQUARE of the learning rate —
squaring is strictly monotone on nonnegative values, so positivity and
strict monotonicity in `s` transfer verbatim — which is the rational
`lrSq hd w s = (1 / hd) * min (1 / s) (s ^ 2 / w ^ 3)`. -/
def lrSq (hd w s : ℕ) : ℚ :=
  (1 / (hd : ℚ)) * min (1 / (s : ℚ)) ((s : ℚ) ^ 2 / (w : ℚ) ^ 3)

/-- Squared Euclidean norm of a gradient vector. -/
def gradNormSq (g : List ℚ) : ℚ :=
  (g.map (fun x => x * x)).sum

/-- Modelled from the spec: `torch.nn.utils.clip_grad_norm_` (trainer.py
line 73) is an external library routine, not code of this repository; it
rescales all gradients by `clip / norm` when the global norm exceeds
`clip`, else leaves them alone.  We track the squared scale factor, which
is rational. -/
def clipScaleSq (c : ℚ) (g : List ℚ) : ℚ :=
  if gradNormSq g ≤ c ^ 2 then 1 else c ^ 2 / gradNormSq g

/-- Squared global gradient norm after the clipping call (trainer.py
line 73): scaling every coordinate by `r` multiplies the squared norm by
`r ^ 2`. -/
def clippedNormSq (c : ℚ) (g : List ℚ) : ℚ :=
  gradNormSq g * clipScaleSq c g

/-! ## Helper lemmas -/

/-- Being below every value the running best can hold after one `updBest`
step is the same as being below the new loss and below the old best. -/
lemma updBest_lt_iff (b : Option ℚ) (v x : ℚ) :
    (∀ c, updBest b v = some c → x < c) ↔ (x < v ∧ ∀ c, b = some c → x < c) := by
  cases b with
  | none => simp [updBest]
  | some b' =>
    by_cases hvb : v < b'
    · simp only [updBest, if_pos hvb]
      constructor
      · intro hx
        exact ⟨hx v rfl, fun c hc => by cases hc; exact lt_trans (hx v rfl) hvb⟩
      · intro hx c hc
        cases hc
        exact hx.1
    · simp only [updBest, if_neg hvb]
      push_neg at hvb
      constructor
      · intro hx
        exact ⟨lt_of_lt_of_le (hx b' rfl) hvb, hx⟩
      · intro hx c hc
        exact hx.2 c hc

/-- The write flag of epoch `i` of the checkpoint fold, for any starting
best: it is set exactly when the epoch's loss beats the starting best and
every earlier loss of the run. -/
lemma trainWrites_getD (b : Option ℚ) (l : List ℚ) (i : ℕ) (h : i < l.length) :
    (trainWrites b l).getD i false = true ↔
      ((∀ c, b = some c → l.get ⟨i, h⟩ < c) ∧ ∀ x ∈ l.take i, l.get ⟨i, h⟩ < x) := by
  induction l generalizing b i with
  | nil => simp at h
  | cons v rest ih =>
    cases i with
    | zero =>
      cases b with
      | none => simp [trainWrites, writeFlag]
      | some c => simp [trainWrites, writeFlag]
    | succ j =>
      have hj : j < rest.length := by simpa using h
      have hstep : (trainWrites b (v :: rest)).getD (j + 1) false
          = (trainWrites (updBest b v) rest).getD j false := rfl
      rw [hstep, ih (updBest b v) j hj]
      have hget : (v :: rest).get ⟨j + 1, h⟩ = rest.get ⟨j, hj⟩ := rfl
      rw [show ((v :: rest).take (j + 1)) = v :: rest.take j from rfl]
      simp only [hget, List.mem_cons, updBest_lt_iff]
      constructor
      · rintro ⟨⟨h1, h2⟩, h3⟩
        exact ⟨h2, fun x hx => by rcases hx with rfl | hx; exacts [h1, h3 x hx]⟩
      · rintro ⟨h1, h2⟩
        exact ⟨⟨h2 v (Or.inl rfl), h1⟩, fun x hx => h2 x (Or.inr hx)⟩

/-- The checkpoint fold started from a concrete best always lands on a
value no larger than the start and than every loss seen, and that value is
the start or one of the losses. -/
lemma foldl_updBest_some (l : List ℚ) (b : ℚ) :
    ∃ c, l.foldl updBest (some b) = some c ∧ c ≤ b ∧ (∀ x ∈ l, c ≤ x) ∧ (c = b ∨ c ∈ l) := by
  induction l generalizing b with
  | nil => exact ⟨b, rfl, le_refl b, by simp, Or.inl rfl⟩
  | cons v rest ih =>
    have hupd : ∃ b', updBest (some b) v = some b' ∧ b' ≤ b ∧ b' ≤ v ∧ (b' = b ∨ b' = v) := by
      by_cases hvb : v < b
      · exact ⟨v, by simp [updBest, hvb], le_of_lt hvb, le_refl v, Or.inr rfl⟩
      · push_neg at hvb
        exact ⟨b, by simp [updBest, not_lt.mpr hvb], le_refl b, hvb, Or.inl rfl⟩
    obtain ⟨b', hb', hb'b, hb'v, hb'mem⟩ := hupd
    obtain ⟨c, hc, hcb', hcall, hcmem⟩ := ih b'
    refine ⟨c, ?_, le_trans hcb' hb'b, ?_, ?_⟩
    · show List.foldl updBest (updBest (some b) v) rest = some c
      rw [hb']; exact hc
    · intro x hx
      rcases List.mem_cons.mp hx with rfl | hx
      · exact le_trans hcb' hb'v
      · exact hcall x hx
    · rcases hcmem with rfl | hc'
      · rcases hb'mem with rfl | rfl
        · exact Or.inl rfl
        · exact Or.inr (List.mem_cons_self _ _)
      · exact Or.inr (List.mem_cons_of_mem _ hc')

/-- The best-seen loss after a full training run is a run minimum: it is
one of the validation losses and no loss of the run is below it. -/
lemma trainBest_spec (l : List ℚ) (c : ℚ) (h : trainBest l = some c) :
    c ∈ l ∧ ∀ x ∈ l, c ≤ x := by
  cases l with
  | nil => simp [trainBest] at h
  | cons v rest =>
    have hfold : trainBest (v :: rest) = rest.foldl updBest (some v) := by
      simp [trainBest, List.foldl_cons, updBest]
    obtain ⟨c', hc', hc'v, hall, hmem⟩ := foldl_updBest_some rest v
    rw [hfold, hc'] at h
    cases h
    constructor
    · rcases hmem with rfl | hm
      · exact List.mem_cons_self _ _
      · exact List.mem_cons_of_mem _ hm
    · intro x hx
      rcases List.mem_cons.mp hx with rfl | hx
      · exact hc'v
      · exact hall x hx

/-- Accumulating a list of losses into a running total starting at `a`
yields `a` plus the list's sum. -/
lemma foldl_add_eq_sum (l : List ℚ) (a : ℚ) : l.foldl (· + ·) a = a + l.sum := by
  induction l generalizing a with
  | nil => simp
  | cons v rest ih => simp [ih, add_assoc]

/-- Below the warm-up point the minimum of the spec's schedule is its
linear branch: `lrSq hd w s = (1 / hd) * (s ^ 2 / w ^ 3)` for `s ≤ w`. -/
lemma lrSq_of_le (hd w s : ℕ) (hs : 1 ≤ s) (hsw : s ≤ w) :
    lrSq hd w s = (1 / (hd : ℚ)) * ((s : ℚ) ^ 2 / (w : ℚ) ^ 3) := by
  have hs0 : (0 : ℚ) < s := by exact_mod_cast hs
  have hw0 : (0 : ℚ) < w := by exact_mod_cast lt_of_lt_of_le hs hsw
  have hswq : (s : ℚ) ≤ w := by exact_mod_cast hsw
  rw [lrSq, min_eq_right]
  rw [div_le_div_iff₀ (by positivity) hs0]
  calc (s : ℚ) ^ 2 * s = (s : ℚ) ^ 3 := by ring
    _ ≤ (w : ℚ) ^ 3 := by gcongr
    _ = 1 * (w : ℚ) ^ 3 := by ring

/-- Past the warm-up point the minimum of the spec's schedule is its decay
branch: `lrSq hd w s = (1 / hd) * (1 / s)` for `w ≤ s`. -/
lemma lrSq_of_ge (hd w s : ℕ) (hw : 1 ≤ w) (hws : w ≤ s) :
    lrSq hd w s = (1 / (hd : ℚ)) * (1 / (s : ℚ)) := by
  have hw0 : (0 : ℚ) < w := by exact_mod_cast hw
  have hs0 : (0 : ℚ) < s := lt_of_lt_of_le hw0 (by exact_mod_cast hws)
  have hwsq : (w : ℚ) ≤ s := by exact_mod_cast hws
  rw [lrSq, min_eq_left]
  rw [div_le_div_iff₀ hs0 (by positivity)]
  calc (1 : ℚ) * (w : ℚ) ^ 3 = (w : ℚ) ^ 3 := by ring
    _ ≤ (s : ℚ) ^ 3 := by gcongr
    _ = (s : ℚ) ^ 2 * s := by ring

/-! ## Claim theorems -/

/-- C1: In `Trainer.train`, a checkpoint is written after an epoch exactly
when that epoch's validation loss is strictly below every earlier epoch's
loss (the best-seen value, initially infinity); the best-seen value tracks
the run minimum; and for losses `[3.0, 2.5, 2.8, 2.1]` the writes happen
after epochs 1, 2 and 4 only. -/
theorem train_checkpoint_iff_improvement :
    (∀ (l : List ℚ) (i : ℕ) (h : i < l.length),
        checkpointAt l i = true ↔ ∀ x ∈ l.take i, l.get ⟨i, h⟩ < x)
    ∧ (∀ (l : List ℚ) (c : ℚ), trainBest l = some c → c ∈ l ∧ ∀ x ∈ l, c ≤ x)
    ∧ writtenEpochs [3, 5/2, 14/5, 21/10] = [1, 2, 4] := by
  refine ⟨fun l i h => ?_, trainBest_spec, ?_⟩
  · rw [checkpointAt, trainWrites_getD none l i h]
    simp
  · norm_num [writtenEpochs, checkpointAt, trainWrites, writeFlag, updBest, List.range_succ]

/-- C2: Calling `Trainer.evaluate` on a zero-length validation iterator
reaches `epoch_loss / len(self.valid_iter)` with a zero count and raises
`ZeroDivisionError` — not the `DataError` the specification demands. -/
theorem evaluate_empty_iterator_division_fault :
    evaluateRun ([] : List Unit) = Except.error PyErr.zeroDivisionError
    ∧ PyErr.zeroDivisionError ≠ PyErr.dataError :=
  ⟨rfl, by decide⟩

/-- C3: On every non-empty validation iterator `Trainer.evaluate` raises
`NameError` at its first loop iteration (lines 111-112 read the locals
`output` and `target` before any assignment), so it never computes a
per-batch loss, let alone a mean under the training flattening contract. -/
theorem evaluate_nonempty_raises_name_fault {α : Type} (b : α) (l : List α) :
    evaluateRun (b :: l) = Except.error PyErr.nameError := rfl

/-- C4 counterexample: in `Trainer.evaluate` the brand-sequential tensor
handed toward the model comes from the batch's `brand_sequential` field
(trainer.py line 99), not from the price field as the claim states for
every run mode. -/
theorem evaluate_brand_source_not_price :
    evaluateBrandSource ≠ BatchField.priceSequential := by decide

/-- C4 amended: only `Trainer.train` builds its brand-sequential tensor
from the price field, and there it is not even passed to the model;
`Trainer.evaluate` and `Trainer.inference` take the tensor from the
batch's `brand_sequential` field and pass it to the model in third
position. -/
theorem brand_source_by_mode :
    trainBrandSource = BatchField.priceSequential
    ∧ evaluateBrandSource = BatchField.brandSequential
    ∧ inferenceBrandSource = BatchField.brandSequential
    ∧ BatchField.brandSequential ∉ trainModelArgSources
    ∧ evaluateModelArgSources.get? 2 = some BatchField.brandSequential
    ∧ inferenceModelArgSources.get? 2 = some BatchField.brandSequential := by decide

/-- C5: the squared scheduled learning rate `lrSq hd w s` (the spec's
`hidden_dim^(-0.5) * min(s^(-0.5), s * warm_steps^(-1.5))`, squared) is
positive at every step `s ≥ 1` — so the schedule is well-defined from a
step counter starting at 1 — strictly increases up to the warm-up point
and strictly decreases beyond it. -/
theorem scheduled_lr_schedule_monotone (hd w s t : ℕ)
    (hhd : 1 ≤ hd) (hw : 1 ≤ w) (hs : 1 ≤ s) :
    0 < lrSq hd w s
    ∧ (s < t → t ≤ w → lrSq hd w s < lrSq hd w t)
    ∧ (w ≤ s → s < t → lrSq hd w t < lrSq hd w s) := by
  have hhd0 : (0 : ℚ) < hd := by exact_mod_cast hhd
  have hw0 : (0 : ℚ) < w := by exact_mod_cast hw
  have hs0 : (0 : ℚ) < s := by exact_mod_cast hs
  refine ⟨?_, ?_, ?_⟩
  · rw [lrSq]
    exact mul_pos (by positivity) (lt_min (by positivity) (by positivity))
  · intro hst htw
    have ht1 : 1 ≤ t := le_trans hs (le_of_lt hst)
    rw [lrSq_of_le hd w s hs (le_trans (le_of_lt hst) htw),
      lrSq_of_le hd w t ht1 htw]
    have hstq : (s : ℚ) < t := by exact_mod_cast hst
    have hsqlt : (s : ℚ) ^ 2 < (t : ℚ) ^ 2 := by nlinarith
    have hdiv : (s : ℚ) ^ 2 / (w : ℚ) ^ 3 < (t : ℚ) ^ 2 / (w : ℚ) ^ 3 :=
      (div_lt_div_iff_of_pos_right (by positivity)).mpr hsqlt
    exact mul_lt_mul_of_pos_left hdiv (by positivity)
  · intro hws hst
    have hstq : (s : ℚ) < t := by exact_mod_cast hst
    rw [lrSq_of_ge hd w s hw hws, lrSq_of_ge hd w t hw (le_trans hws (le_of_lt hst))]
    exact mul_lt_mul_of_pos_left (one_div_lt_one_div_of_lt hs0 hstq) (by positivity)

/-- C5 witness: the schedule theorem instantiated at `hidden_dim = 4`,
`warm_steps = 3`, steps 1 and 2. -/
theorem scheduled_lr_schedule_monotone_witness :
    0 < lrSq 4 3 1
    ∧ (1 < 2 → 2 ≤ 3 → lrSq 4 3 1 < lrSq 4 3 2)
    ∧ (3 ≤ 1 → 1 < 2 → lrSq 4 3 2 < lrSq 4 3 1) :=
  scheduled_lr_schedule_monotone 4 3 1 2 (by norm_num) (by norm_num) (by norm_num)

/-- C6 counterexample: for a conversion output of shape `[2, 3, 1]` (one
class), the `squeeze(1)` on trainer.py line 67 drops the class dimension:
the flattened shape is `[6]`, not the `(total-examples, num-classes)` shape
`[6, 1]` the claim states. -/
theorem train_flatten_squeeze_counterexample :
    trainFlattenOutput [2, 3, 1] = some [6]
    ∧ trainFlattenOutput [2, 3, 1] ≠ some [6, 1] := by decide

/-- C6 amended: whenever the class dimension holds at least two classes,
`Trainer.train` flattens the conversion prediction of shape `d ++ [c]` to
`(total-examples, num-classes) = [numel d, c]` and the conversion labels of
shape `d` to the 1-D `[numel d]`, and these are the tensors passed as the
primary pair to the loss call. -/
theorem train_flatten_primary_task (d : List ℕ) (c : ℕ) (hc : 2 ≤ c) :
    trainFlattenOutput (d ++ [c]) = some [numel d, c]
    ∧ trainFlattenTarget d = [numel d] := by
  have hc0 : 0 < c := lt_of_lt_of_le (by norm_num) hc
  have hlast : (d ++ [c]).getLast? = some c := by
    simp [List.getLast?_concat]
  have hnum : numel (d ++ [c]) = numel d * c := by
    simp [numel]
  have hsq : squeeze1 [numel d, c] = [numel d, c] := by
    rcases c with _ | _ | k
    · omega
    · omega
    · rfl
  refine ⟨?_, rfl⟩
  rw [trainFlattenOutput]
  rw [hlast]
  simp only [Option.bind_eq_bind, Option.some_bind]
  rw [view2, if_pos ⟨Nat.pos_iff_ne_zero.mp hc0, by rw [hnum]; exact Nat.mul_mod_left _ _⟩]
  simp only [Option.some_bind]
  rw [hnum, Nat.mul_div_cancel _ hc0, hsq]
  rfl

/-- C6 witness: the amended flattening theorem at output shape
`[2, 3] ++ [2]`. -/
theorem train_flatten_primary_task_witness :
    trainFlattenOutput ([2, 3] ++ [2]) = some [numel [2, 3], 2]
    ∧ trainFlattenTarget [2, 3] = [numel [2, 3]] :=
  train_flatten_primary_task [2, 3] 2 (by norm_num)

/-- C7: the reported mean epoch loss is the sum of the per-batch losses
divided by the batch count, and for per-batch losses `[1, 2, 3]` it is
`2`. -/
theorem epoch_mean_loss_eq_sum_div_count :
    (∀ l : List ℚ, epochMeanLoss l = l.sum / l.length)
    ∧ epochMeanLoss [1, 2, 3] = 2 := by
  constructor
  · intro l
    rw [epochMeanLoss, foldl_add_eq_sum, zero_add]
  · norm_num [epochMeanLoss]

/-- C8: `Trainer.evaluate` leaves the model parameters, the optimizer's
step counter and the optimizer's moment estimates untouched; its only
persistent state change is clearing the model's training-mode flag. -/
theorem evaluate_preserves_params_and_optimizer (st : TrainerState) :
    (evaluateStateEffect st).modelParams = st.modelParams
    ∧ (evaluateStateEffect st).optStep = st.optStep
    ∧ (evaluateStateEffect st).optMoments = st.optMoments
    ∧ (evaluateStateEffect st).modelTrainingMode = false :=
  ⟨rfl, rfl, rfl, rfl⟩

/-- C9: after the gradient-clipping call, the squared global gradient norm
is at most the square of the configured clip value, for any pre-clip
gradients — squaring is monotone on nonnegatives, so this is the spec's
`norm ≤ clip` bound. -/
theorem clipped_grad_norm_le_clip (c : ℚ) (g : List ℚ) (_hc : 0 ≤ c) :
    clippedNormSq c g ≤ c ^ 2 := by
  by_cases h : gradNormSq g ≤ c ^ 2
  · rw [clippedNormSq, clipScaleSq, if_pos h, mul_one]
    exact h
  · push_neg at h
    have h0 : 0 < gradNormSq g := lt_of_le_of_lt (sq_nonneg c) h
    rw [clippedNormSq, clipScaleSq, if_neg (not_le.mpr h), mul_comm,
      div_mul_cancel₀ _ (ne_of_gt h0)]

/-- C9 witness: the clipping bound at clip value 2 and gradient `[3]`. -/
theorem clipped_grad_norm_le_clip_witness :
    clippedNormSq 2 [3] ≤ (2 : ℚ) ^ 2 :=
  clipped_grad_norm_le_clip 2 [3] (by norm_num)

/-- C10: importing the trainer module unconditionally forces the global
RNG state to seed 32 for Python's `random` and torch and enables cudnn
deterministic mode, whatever the state was; consequently any entry point
reading that state gives identical results across two runs on identical
inputs. -/
theorem import_seeds_and_two_run_determinism :
    (∀ s : GlobalRngState, importTrainerModule s =
      { pyRandomSeed := some 32, torchSeed := some 32, cudnnDeterministic := true })
    ∧ ∀ {α β : Type} (entry : GlobalRngState → α → β) (s₁ s₂ : GlobalRngState) (x : α),
        entry (importTrainerModule s₁) x = entry (importTrainerModule s₂) x := by
  constructor
  · intro s
    rfl
  · intro α β entry s₁ s₂ x
    rfl
